import Mathlib

/-!
Shallow embedding of
`mage_ai/frontend/components/CommandCenter/ApplicationFooter/index.tsx`.

The component is a pure render function from props to a view tree.  We embed
the view tree as an inductive type; the click handler of a button is embedded
as data: the list of `executeButtonActions` argument bundles that clicking the
button would produce (the source wires `onClick` to a single call of
`executeButtonActions` with a record of seven values).  External collaborators
(`getIcon`, `getIconColor`, the `KEY_CODE_KEY_SYMBOL_MAPPING` table) are
parameters of the render function; a key code that is not in the table maps to
`none`, modelling the `undefined` lookup fallback of a JS object map.
-/

namespace ApplicationFooterSpec

/-- `display_settings` of a button; the component only reads `color_uuid`. -/
structure DisplaySettings where
  color_uuid : Option String
deriving DecidableEq, Repr

/-- A button descriptor: the fields destructured by the component.  Every
field is optional, matching the optional chaining in the source
(`displaySettings?.color_uuid`, `keyboardShortcuts?.map`, `arr?.map`). -/
structure Button where
  display_settings : Option DisplaySettings
  keyboard_shortcuts : Option (List (Option (List Nat)))
  label : Option String
  tooltip : Option String
deriving DecidableEq, Repr

/-- An application descriptor: `uuid` and a `buttons` list, both optional
(the source reads `application?.uuid` and `application?.buttons`). -/
structure Application where
  uuid : Option String
  buttons : Option (List Button)
deriving DecidableEq, Repr

/-- The parent command-center item: the component reads `item.title`,
`item?.uuid`, destructures `applications`, and passes `item` to the icon and
color resolvers and to the click bundle. -/
structure Item where
  applications : Option (List Application)
  title : Option String
  uuid : Option String
deriving DecidableEq, Repr

/-- The props of `ApplicationFooter`.  The opaque callback and ref values
(`applicationsRef`, `executeAction`, `removeApplication`, `refError`) are
modelled as `Nat` handles: the component never inspects them, it only passes
them along. -/
structure ApplicationProps where
  application : Option Application
  applicationsRef : Nat
  executeAction : Nat
  focusedItemIndex : Option Nat
  item : Item
  removeApplication : Nat
  refError : Nat
deriving DecidableEq, Repr

/-- The argument record built by the component's `onClick` closure and passed
to `executeButtonActions`. -/
structure ButtonActionArgs where
  application : Option Application
  button : Button
  executeAction : Nat
  focusedItemIndex : Option Nat
  item : Item
  refError : Nat
  removeApplication : Nat
deriving DecidableEq, Repr

/-- The color token returned by the external `getIconColor` resolver; the
component reads only `iconColor?.accent`. -/
structure IconColor where
  accent : Option String
deriving DecidableEq, Repr

/-- `KeyTextsPostitionEnum` from the `KeyboardShortcutButton` module (the
source imports and uses only `RIGHT`; the spelling follows the source). -/
inductive KeyTextsPostitionEnum where
  | LEFT
  | RIGHT
deriving DecidableEq, Repr

/-- The props handed to the `KeyboardShortcutButton` element for one button.
`onClick` is embedded as the list of `executeButtonActions` calls that
clicking performs; `keyTextGroups` is the result of mapping the shortcut
sequences through the symbol table. -/
structure KBButtonProps where
  addPlusSignBetweenKeys : Bool
  bold : Bool
  compact : Bool
  default : Bool
  keyTextGroups : Option (List (Option (List (Option String))))
  keyTextsPosition : KeyTextsPostitionEnum
  noBackground : Bool
  onClick : List ButtonActionArgs
  uuid : String
deriving DecidableEq, Repr

/-- The view tree produced by the component, one constructor per element kind
used in the JSX. -/
inductive ViewNode where
  | flexContainer (alignItems : Option String) (fullWidth : Bool)
      (justifyContent : Option String) (key : Option String)
      (children : List ViewNode)
  | flex (alignItems : Option String) (flexGrow : Option Nat)
      (children : List ViewNode)
  | icon (fill : Option String) (size : Nat) (iconId : Nat)
  | divMargin (marginRight : Nat)
  | text (default : Bool) (weightStyle : Nat) (content : Option String)
  | spacing (mr : Nat)
  | kbButton (props : KBButtonProps) (label : Option String)

/-- Modelled from the spec: the spacing unit from the external styles module
`oracle/styles/units/spacing` (not part of the provided sources); only its
positivity matters to layout, no claim depends on the value. -/
def UNIT : Nat := 8

/-- Modelled from the spec: the padding constant from the external styles
module (not part of the provided sources); no claim depends on the value. -/
def PADDING_UNITS : Nat := 2

/-- JS template-literal rendering of a possibly-`undefined` string, as in
the interpolation of the button `uuid`. -/
def jsStr : Option String → String
  | some s => s
  | none => "undefined"

/-- `application?.buttons?.length ?? 0` from the source. -/
def buttonsCountOf (props : ApplicationProps) : Nat :=
  ((props.application.bind Application.buttons).map List.length).getD 0

/-- The props of the `KeyboardShortcutButton` rendered for `button` at index
`idx`, with `buttonsCount` total buttons; `mp` is the
`KEY_CODE_KEY_SYMBOL_MAPPING` table. -/
def kbButtonProps (mp : Nat → Option String) (props : ApplicationProps)
    (buttonsCount idx : Nat) (button : Button) : KBButtonProps :=
  { addPlusSignBetweenKeys := true
    bold := true
    compact := true
    default := decide (idx = 0 ∧ 2 ≤ buttonsCount)
    keyTextGroups :=
      button.keyboard_shortcuts.map fun ks =>
        ks.map fun arr => arr.map fun keyCodes => keyCodes.map mp
    keyTextsPosition := KeyTextsPostitionEnum.RIGHT
    noBackground := decide (idx = 0 ∧ 2 ≤ buttonsCount)
    onClick :=
      [{ application := props.application
         button := button
         executeAction := props.executeAction
         focusedItemIndex := props.focusedItemIndex
         item := props.item
         refError := props.refError
         removeApplication := props.removeApplication }]
    uuid :=
      jsStr props.item.uuid ++ "-" ++
        jsStr (props.application.bind Application.uuid) ++ "-" ++
        toString idx ++ "-button" }

/-- The `FlexContainer` rendered for one button: keyed by the button's label,
holding an optional leading `Spacing` (when `idx >= 1`) and the
`KeyboardShortcutButton`. -/
def renderButtonNode (mp : Nat → Option String) (props : ApplicationProps)
    (buttonsCount idx : Nat) (button : Button) : ViewNode :=
  ViewNode.flexContainer (some "center") false none button.label
    ((if 1 ≤ idx then [ViewNode.spacing PADDING_UNITS] else []) ++
      [ViewNode.kbButton (kbButtonProps mp props buttonsCount idx button)
        button.label])

/-- The `.map((button, idx) => ...)` over the buttons list, carrying the
running index. -/
def renderButtonsFrom (mp : Nat → Option String) (props : ApplicationProps)
    (buttonsCount : Nat) : Nat → List Button → List ViewNode
  | _, [] => []
  | idx, b :: rest =>
      renderButtonNode mp props buttonsCount idx b ::
        renderButtonsFrom mp props buttonsCount (idx + 1) rest

/-- The children of the right-hand `FlexContainer`:
`application?.buttons?.map(...)`, where an absent application or buttons list
renders nothing. -/
def buttonRegionChildren (mp : Nat → Option String)
    (props : ApplicationProps) : List ViewNode :=
  match props.application.bind Application.buttons with
  | none => []
  | some bs => renderButtonsFrom mp props (buttonsCountOf props) 0 bs

/-- The full render of `ApplicationFooter`: the outer flex container with the
icon/title region on the left and the button region on the right.  `gi` is
`getIcon` (opaque icon identity), `gc` is `getIconColor`, `mp` is the key
symbol table. -/
def ApplicationFooter (gi : Item → Nat)
    (gc : Item → Option IconColor) (mp : Nat → Option String)
    (props : ApplicationProps) : ViewNode :=
  ViewNode.flexContainer (some "center") true (some "space-between") none
    [ViewNode.flex (some "center") (some 1)
        [ViewNode.icon ((gc props.item).bind IconColor.accent) (2 * UNIT)
            (gi props.item),
          ViewNode.divMargin (3 * UNIT / 2),
          ViewNode.text true 4 props.item.title,
          ViewNode.spacing PADDING_UNITS],
      ViewNode.flexContainer (some "center") false none none
        (buttonRegionChildren mp props)]

/-- The children of a container node (empty for leaf nodes). -/
def containerChildren : ViewNode → List ViewNode
  | .flexContainer _ _ _ _ cs => cs
  | .flex _ _ cs => cs
  | _ => []

/-- The React list key of a rendered node. -/
def keyOf : ViewNode → Option String
  | .flexContainer _ _ _ k _ => k
  | _ => none

/-- The `KeyboardShortcutButton` props of a node, when it is one. -/
def kbPropsOf : ViewNode → Option KBButtonProps
  | .kbButton p _ => some p
  | _ => none

/-- The right-hand button region of a rendered footer: the children of the
second child of the outer container. -/
def buttonRegionOf : ViewNode → List ViewNode
  | .flexContainer _ _ _ _ cs =>
      match cs[1]? with
      | some (ViewNode.flexContainer _ _ _ _ rs) => rs
      | _ => []
  | _ => []

/-- The props of the button control rendered at index `idx` of the button
region of a rendered footer. -/
def kbPropsAt (t : ViewNode) (idx : Nat) : Option KBButtonProps :=
  ((buttonRegionOf t)[idx]?).bind fun n =>
    (containerChildren n).findSome? kbPropsOf

/-- Erase the click-handler payloads everywhere in a tree, keeping all
visible content: this is the tree as it looks, forgetting what clicking
would do. -/
def eraseClicks : ViewNode → ViewNode
  | .flexContainer a f j k cs => .flexContainer a f j k (cs.attach.map fun c => eraseClicks c.1)
  | .flex a g cs => .flex a g (cs.attach.map fun c => eraseClicks c.1)
  | .icon f s i => .icon f s i
  | .divMargin m => .divMargin m
  | .text d w c => .text d w c
  | .spacing m => .spacing m
  | .kbButton p l => .kbButton { p with onClick := [] } l
termination_by t => sizeOf t
decreasing_by
  all_goals
    simp_wf
    have h := List.sizeOf_lt_of_mem c.2
    omega

/-- Replace the `color_uuid` of button `i` (when its `display_settings` is
present) by `cu i`, for every button of the list, starting at index `i`. -/
def setColorFrom (cu : Nat → Option String) : Nat → List Button → List Button
  | _, [] => []
  | i, b :: rest =>
      { b with display_settings :=
          b.display_settings.map fun d => { d with color_uuid := cu i } } ::
        setColorFrom cu (i + 1) rest

/-- The props obtained from `p` by changing only the buttons'
`display_settings.color_uuid` values (to `cu idx` for the button at `idx`);
everything else, including which buttons have display settings at all, is
unchanged. -/
def withColorUUIDs (cu : Nat → Option String) (p : ApplicationProps) :
    ApplicationProps :=
  { p with application := p.application.map fun a =>
      { a with buttons := a.buttons.map (setColorFrom cu 0) } }

/-! Concrete fixtures used by witnesses and the counterexample. -/

/-- A trivial icon resolver. -/
def giZero : Item → Nat := fun _ => 0

/-- A trivial color resolver. -/
def gcZero : Item → Option IconColor := fun _ => none

/-- An empty key symbol table (every lookup falls back to `none`). -/
def mpZero : Nat → Option String := fun _ => none

/-- A key symbol table with two entries, `91` the command glyph and `75` the
letter K. -/
def mpSym : Nat → Option String := fun k =>
  if k = 91 then some "⌘" else if k = 75 then some "K" else none

/-- A concrete item. -/
def itemZero : Item :=
  { applications := none, title := some "Pipelines", uuid := some "item-1" }

/-- A concrete button with no optional data. -/
def btnA : Button :=
  { display_settings := none, keyboard_shortcuts := none,
    label := some "Open", tooltip := none }

/-- A concrete button with display settings and a shortcut sequence. -/
def btnB : Button :=
  { display_settings := some { color_uuid := some "blue" },
    keyboard_shortcuts := some [some [91, 75]],
    label := some "Run", tooltip := some "run it" }

/-- An application whose buttons list is absent. -/
def appNoButtons : Application := { uuid := some "app-1", buttons := none }

/-- An application with one button. -/
def appOne : Application := { uuid := some "app-1", buttons := some [btnA] }

/-- An application with two buttons. -/
def appTwo : Application :=
  { uuid := some "app-1", buttons := some [btnA, btnB] }

/-- Concrete props around a given application value. -/
def propsOf (a : Option Application) : ApplicationProps :=
  { application := a, applicationsRef := 0, executeAction := 1,
    focusedItemIndex := some 0, item := itemZero,
    removeApplication := 2, refError := 3 }

/-- Props with no application. -/
def propsNone : ApplicationProps := propsOf none

/-- Props whose application has no buttons list. -/
def propsNoButtons : ApplicationProps := propsOf (some appNoButtons)

/-- Props with one button. -/
def propsOne : ApplicationProps := propsOf (some appOne)

/-- Props with two buttons. -/
def propsTwo : ApplicationProps := propsOf (some appTwo)

/-- A color assignment used by the counterexample. -/
def cuRed : Nat → Option String := fun _ => some "red"

/-! Helper lemmas about the embedding, shared by the claim theorems. -/

theorem buttonsCountOf_eq_length (props : ApplicationProps) (bs : List Button)
    (h : props.application.bind Application.buttons = some bs) :
    buttonsCountOf props = bs.length := by
  simp [buttonsCountOf, h]

theorem buttonRegionChildren_none (mp : Nat → Option String)
    (props : ApplicationProps)
    (h : props.application.bind Application.buttons = none) :
    buttonRegionChildren mp props = [] := by
  simp [buttonRegionChildren, h]

theorem buttonRegionChildren_some (mp : Nat → Option String)
    (props : ApplicationProps) (bs : List Button)
    (h : props.application.bind Application.buttons = some bs) :
    buttonRegionChildren mp props = renderButtonsFrom mp props bs.length 0 bs := by
  simp [buttonRegionChildren, h, buttonsCountOf_eq_length props bs h]

theorem length_renderButtonsFrom (mp : Nat → Option String)
    (props : ApplicationProps) (c : Nat) :
    ∀ (i : Nat) (bs : List Button),
      (renderButtonsFrom mp props c i bs).length = bs.length
  | _, [] => rfl
  | i, _ :: rest => by
      simp [renderButtonsFrom, length_renderButtonsFrom mp props c (i + 1) rest]

theorem getElem?_renderButtonsFrom (mp : Nat → Option String)
    (props : ApplicationProps) (c : Nat) :
    ∀ (bs : List Button) (i j : Nat),
      (renderButtonsFrom mp props c i bs)[j]? =
        (bs[j]?).map fun b => renderButtonNode mp props c (i + j) b
  | [], _, _ => by simp [renderButtonsFrom]
  | _ :: _, _, 0 => by simp [renderButtonsFrom]
  | _ :: rest, i, j + 1 => by
      have ih := getElem?_renderButtonsFrom mp props c rest (i + 1) j
      have hadd : i + 1 + j = i + (j + 1) := by omega
      simp [renderButtonsFrom, ih, hadd]

theorem map_keyOf_renderButtonsFrom (mp : Nat → Option String)
    (props : ApplicationProps) (c : Nat) :
    ∀ (i : Nat) (bs : List Button),
      (renderButtonsFrom mp props c i bs).map keyOf = bs.map Button.label
  | _, [] => rfl
  | i, b :: rest => by
      simp [renderButtonsFrom, renderButtonNode, keyOf,
        map_keyOf_renderButtonsFrom mp props c (i + 1) rest]

theorem buttonRegionOf_ApplicationFooter (gi : Item → Nat)
    (gc : Item → Option IconColor) (mp : Nat → Option String)
    (props : ApplicationProps) :
    buttonRegionOf (ApplicationFooter gi gc mp props) =
      buttonRegionChildren mp props := by
  simp [ApplicationFooter, buttonRegionOf]

theorem findSome?_kbPropsOf_renderButtonNode (mp : Nat → Option String)
    (props : ApplicationProps) (c idx : Nat) (b : Button) :
    (containerChildren (renderButtonNode mp props c idx b)).findSome? kbPropsOf =
      some (kbButtonProps mp props c idx b) := by
  rcases Nat.eq_zero_or_pos idx with h | h
  · subst h
    simp [renderButtonNode, containerChildren, kbPropsOf, List.findSome?]
  · have h1 : 1 ≤ idx := h
    simp [renderButtonNode, containerChildren, kbPropsOf, List.findSome?, h1]

theorem kbPropsAt_ApplicationFooter (gi : Item → Nat)
    (gc : Item → Option IconColor) (mp : Nat → Option String)
    (props : ApplicationProps) (bs : List Button)
    (h : props.application.bind Application.buttons = some bs)
    (idx : Nat) (hi : idx < bs.length) :
    kbPropsAt (ApplicationFooter gi gc mp props) idx =
      some (kbButtonProps mp props bs.length idx bs[idx]) := by
  rw [kbPropsAt, buttonRegionOf_ApplicationFooter,
    buttonRegionChildren_some mp props bs h, getElem?_renderButtonsFrom]
  simp [List.getElem?_eq_getElem hi, findSome?_kbPropsOf_renderButtonNode]

theorem eraseClicks_flexContainer (a : Option String) (f : Bool)
    (j k : Option String) (cs : List ViewNode) :
    eraseClicks (ViewNode.flexContainer a f j k cs) =
      ViewNode.flexContainer a f j k (cs.map eraseClicks) := by
  rw [eraseClicks, List.attach_map_val]

theorem eraseClicks_flex (a : Option String) (g : Option Nat)
    (cs : List ViewNode) :
    eraseClicks (ViewNode.flex a g cs) =
      ViewNode.flex a g (cs.map eraseClicks) := by
  rw [eraseClicks, List.attach_map_val]

theorem length_setColorFrom (cu : Nat → Option String) :
    ∀ (i : Nat) (bs : List Button), (setColorFrom cu i bs).length = bs.length
  | _, [] => rfl
  | i, _ :: rest => by
      simp [setColorFrom, length_setColorFrom cu (i + 1) rest]

theorem withColorUUIDs_item (cu : Nat → Option String)
    (p : ApplicationProps) : (withColorUUIDs cu p).item = p.item := rfl

theorem withColorUUIDs_app_uuid (cu : Nat → Option String)
    (p : ApplicationProps) :
    (withColorUUIDs cu p).application.bind Application.uuid =
      p.application.bind Application.uuid := by
  cases h : p.application <;> simp [withColorUUIDs, h]

theorem withColorUUIDs_buttons (cu : Nat → Option String)
    (p : ApplicationProps) :
    (withColorUUIDs cu p).application.bind Application.buttons =
      (p.application.bind Application.buttons).map (setColorFrom cu 0) := by
  cases h : p.application with
  | none => simp [withColorUUIDs, h]
  | some a => cases hb : a.buttons <;> simp [withColorUUIDs, h, hb]

theorem eraseClicks_renderButtonNode_color (mp : Nat → Option String)
    (cu : Nat → Option String) (p : ApplicationProps) (c idx : Nat)
    (b : Button) (ds : Option DisplaySettings) :
    eraseClicks (renderButtonNode mp (withColorUUIDs cu p) c idx
        { b with display_settings := ds }) =
      eraseClicks (renderButtonNode mp p c idx b) := by
  rw [renderButtonNode, renderButtonNode, eraseClicks_flexContainer,
    eraseClicks_flexContainer]
  rcases Nat.eq_zero_or_pos idx with h | h <;>
    simp [h, eraseClicks, kbButtonProps, withColorUUIDs_app_uuid,
      withColorUUIDs_item]

theorem eraseClicks_renderButtonsFrom_color (mp : Nat → Option String)
    (cu : Nat → Option String) (p : ApplicationProps) (c : Nat) :
    ∀ (i : Nat) (bs : List Button),
      (renderButtonsFrom mp (withColorUUIDs cu p) c i
          (setColorFrom cu i bs)).map eraseClicks =
        (renderButtonsFrom mp p c i bs).map eraseClicks
  | _, [] => rfl
  | i, b :: rest => by
      simp only [setColorFrom, renderButtonsFrom, List.map_cons, List.cons.injEq]
      exact ⟨eraseClicks_renderButtonNode_color mp cu p c i b _,
        eraseClicks_renderButtonsFrom_color mp cu p c (i + 1) rest⟩

theorem buttonRegionChildren_color (mp cu : Nat → Option String)
    (p : ApplicationProps) :
    (buttonRegionChildren mp (withColorUUIDs cu p)).map eraseClicks =
      (buttonRegionChildren mp p).map eraseClicks := by
  cases hb : p.application.bind Application.buttons with
  | none =>
      have hb' : (withColorUUIDs cu p).application.bind Application.buttons =
          none := by rw [withColorUUIDs_buttons, hb]; rfl
      rw [buttonRegionChildren_none mp p hb, buttonRegionChildren_none mp _ hb']
  | some bs =>
      have hb' : (withColorUUIDs cu p).application.bind Application.buttons =
          some (setColorFrom cu 0 bs) := by rw [withColorUUIDs_buttons, hb]; rfl
      rw [buttonRegionChildren_some mp p bs hb,
        buttonRegionChildren_some mp _ _ hb', length_setColorFrom]
      exact eraseClicks_renderButtonsFrom_color mp cu p bs.length 0 bs

theorem eraseClicks_icon (f : Option String) (s i : Nat) :
    eraseClicks (ViewNode.icon f s i) = ViewNode.icon f s i := by
  rw [eraseClicks]

theorem eraseClicks_divMargin (m : Nat) :
    eraseClicks (ViewNode.divMargin m) = ViewNode.divMargin m := by
  rw [eraseClicks]

theorem eraseClicks_text (d : Bool) (w : Nat) (c : Option String) :
    eraseClicks (ViewNode.text d w c) = ViewNode.text d w c := by
  rw [eraseClicks]

theorem eraseClicks_spacing (m : Nat) :
    eraseClicks (ViewNode.spacing m) = ViewNode.spacing m := by
  rw [eraseClicks]

/-! The claim theorems. -/

/-- C1: for a non-empty buttons list, the control rendered at index `idx`
carries the default/no-background styling exactly when `idx = 0` and there
are at least two buttons; in particular a sole button gets standard styling
and in a list of length at least two only the first is de-emphasized. -/
theorem C1_default_styling (gi : Item → Nat) (gc : Item → Option IconColor)
    (mp : Nat → Option String) (props : ApplicationProps) (bs : List Button)
    (h : props.application.bind Application.buttons = some bs)
    (idx : Nat) (hi : idx < bs.length) :
    kbPropsAt (ApplicationFooter gi gc mp props) idx =
      some (kbButtonProps mp props bs.length idx bs[idx]) ∧
    ((kbButtonProps mp props bs.length idx bs[idx]).default = true ↔
      (idx = 0 ∧ 2 ≤ bs.length)) := by
  refine ⟨kbPropsAt_ApplicationFooter gi gc mp props bs h idx hi, ?_⟩
  simp [kbButtonProps]

/-- Witness for C1: in the two-button fixture the first button is
default-styled exactly as the characterization states. -/
theorem C1_default_styling_witness :
    kbPropsAt (ApplicationFooter giZero gcZero mpZero propsTwo) 0 =
      some (kbButtonProps mpZero propsTwo 2 0 btnA) ∧
    ((kbButtonProps mpZero propsTwo 2 0 btnA).default = true ↔
      (0 = 0 ∧ 2 ≤ 2)) := by
  have h := C1_default_styling giZero gcZero mpZero propsTwo [btnA, btnB]
    rfl 0 (by decide)
  simpa using h

/-- C2: clicking the control rendered at index `idx` performs exactly one
call of `executeButtonActions`, whose argument bundle holds exactly the
application, button, executeAction, focusedItemIndex, item, refError and
removeApplication values in effect at render time; the component does
nothing else with the result. -/
theorem C2_click_bundle (gi : Item → Nat) (gc : Item → Option IconColor)
    (mp : Nat → Option String) (props : ApplicationProps) (bs : List Button)
    (h : props.application.bind Application.buttons = some bs)
    (idx : Nat) (hi : idx < bs.length) :
    ∃ p, kbPropsAt (ApplicationFooter gi gc mp props) idx = some p ∧
      p.onClick = [{ application := props.application, button := bs[idx],
                     executeAction := props.executeAction,
                     focusedItemIndex := props.focusedItemIndex,
                     item := props.item, refError := props.refError,
                     removeApplication := props.removeApplication }] :=
  ⟨_, kbPropsAt_ApplicationFooter gi gc mp props bs h idx hi, rfl⟩

/-- Witness for C2: the second button of the two-button fixture wires a
single call with the render-time values. -/
theorem C2_click_bundle_witness :
    ∃ p, kbPropsAt (ApplicationFooter giZero gcZero mpZero propsTwo) 1 =
        some p ∧
      p.onClick = [{ application := propsTwo.application, button := btnB,
                     executeAction := propsTwo.executeAction,
                     focusedItemIndex := propsTwo.focusedItemIndex,
                     item := propsTwo.item, refError := propsTwo.refError,
                     removeApplication := propsTwo.removeApplication }] := by
  have h := C2_click_bundle giZero gcZero mpZero propsTwo [btnA, btnB]
    rfl 1 (by decide)
  simpa using h

/-- C3: missing optional data degrades instead of failing: an absent
application or an absent buttons list renders zero buttons, a button without
keyboard shortcuts renders an absent key-text group, and a button without
display settings still renders its control (the render function is total, so
no input raises an error). -/
theorem C3_missing_data_safe (mp : Nat → Option String)
    (props : ApplicationProps) (c idx : Nat) (b : Button) :
    (props.application = none → buttonRegionChildren mp props = []) ∧
    (∀ app, props.application = some app → app.buttons = none →
      buttonRegionChildren mp props = []) ∧
    (b.keyboard_shortcuts = none →
      (kbButtonProps mp props c idx b).keyTextGroups = none) ∧
    (∃ rest, containerChildren (renderButtonNode mp props c idx b) =
      rest ++ [ViewNode.kbButton (kbButtonProps mp props c idx b) b.label]) :=
  ⟨fun h => buttonRegionChildren_none mp props (by simp [h]),
    fun _ ha hb => buttonRegionChildren_none mp props (by simp [ha, hb]),
    fun h => by simp [kbButtonProps, h],
    ⟨_, rfl⟩⟩

/-- Witness for C3: the degradations at the concrete fixtures. -/
theorem C3_missing_data_safe_witness :
    buttonRegionChildren mpZero propsNone = [] ∧
    buttonRegionChildren mpZero propsNoButtons = [] ∧
    (kbButtonProps mpZero propsNone 1 0 btnA).keyTextGroups = none :=
  ⟨(C3_missing_data_safe mpZero propsNone 1 0 btnA).1 rfl,
    (C3_missing_data_safe mpZero propsNoButtons 1 0 btnA).2.1
      appNoButtons rfl rfl,
    (C3_missing_data_safe mpZero propsNone 1 0 btnA).2.2.1 rfl⟩

/-- C4: each shortcut sequence is mapped element-wise through the key-symbol
table with order preserved (codes outside the table fall back to the table's
absent result), the plus-sign separator flag is set, and for a sequence of
two mapped codes the rendered group shows the two symbols in order. -/
theorem C4_key_symbols (mp : Nat → Option String) (props : ApplicationProps)
    (c idx : Nat) (b : Button) :
    (kbButtonProps mp props c idx b).addPlusSignBetweenKeys = true ∧
    (kbButtonProps mp props c idx b).keyTextGroups =
      b.keyboard_shortcuts.map (fun ks => ks.map fun arr =>
        arr.map fun keyCodes => keyCodes.map mp) ∧
    (∀ a b2 : Nat, b.keyboard_shortcuts = some [some [a, b2]] →
      (kbButtonProps mp props c idx b).keyTextGroups =
        some [some [mp a, mp b2]]) :=
  ⟨rfl, rfl, fun a b2 h => by simp [kbButtonProps, h]⟩

/-- Witness for C4: with the table mapping 91 to the command glyph and 75 to
K, the fixture button's group shows the two symbols in order. -/
theorem C4_key_symbols_witness :
    (kbButtonProps mpSym propsOne 1 0 btnB).keyTextGroups =
      some [some [some "⌘", some "K"]] := by
  have h := (C4_key_symbols mpSym propsOne 1 0 btnB).2.2 91 75 rfl
  simpa [mpSym] using h

/-- C5: the button region holds no controls when the application or its
buttons list is absent (so also for a length-0 list), and otherwise exactly
one rendered control per element of the buttons list, in order. -/
theorem C5_one_control_per_button (mp : Nat → Option String)
    (props : ApplicationProps) :
    (props.application.bind Application.buttons = none →
      buttonRegionChildren mp props = []) ∧
    (∀ bs, props.application.bind Application.buttons = some bs →
      (buttonRegionChildren mp props).length = bs.length ∧
      ∀ idx, (hi : idx < bs.length) →
        (buttonRegionChildren mp props)[idx]? =
          some (renderButtonNode mp props bs.length idx bs[idx])) := by
  refine ⟨buttonRegionChildren_none mp props, fun bs h => ?_⟩
  rw [buttonRegionChildren_some mp props bs h]
  refine ⟨length_renderButtonsFrom mp props bs.length 0 bs, fun idx hi => ?_⟩
  rw [getElem?_renderButtonsFrom]
  simp [List.getElem?_eq_getElem hi]

/-- Witness for C5: no controls without a buttons list, and one control per
button in the two-button fixture. -/
theorem C5_one_control_per_button_witness :
    buttonRegionChildren mpZero propsNoButtons = [] ∧
    (buttonRegionChildren mpZero propsTwo).length = 2 ∧
    (buttonRegionChildren mpZero propsTwo)[0]? =
      some (renderButtonNode mpZero propsTwo 2 0 btnA) := by
  have h1 := (C5_one_control_per_button mpZero propsNoButtons).1 rfl
  have h2 := (C5_one_control_per_button mpZero propsTwo).2 [btnA, btnB] rfl
  exact ⟨h1, by simpa using h2.1, by simpa using h2.2 0 (by decide)⟩

/-- C6: inside its container, the button at an index of at least 1 is
immediately preceded by a spacing element, while the button at index 0 is
the sole child with no spacing before it. -/
theorem C6_spacing (mp : Nat → Option String) (props : ApplicationProps)
    (c idx : Nat) (b : Button) :
    (1 ≤ idx → containerChildren (renderButtonNode mp props c idx b) =
      [ViewNode.spacing PADDING_UNITS,
        ViewNode.kbButton (kbButtonProps mp props c idx b) b.label]) ∧
    (idx = 0 → containerChildren (renderButtonNode mp props c idx b) =
      [ViewNode.kbButton (kbButtonProps mp props c idx b) b.label]) := by
  constructor
  · intro h
    simp [renderButtonNode, containerChildren, h]
  · intro h
    subst h
    simp [renderButtonNode, containerChildren]

/-- Witness for C6: the fixture's second button is preceded by a spacing
element and the first is not. -/
theorem C6_spacing_witness :
    containerChildren (renderButtonNode mpZero propsTwo 2 1 btnB) =
      [ViewNode.spacing PADDING_UNITS,
        ViewNode.kbButton (kbButtonProps mpZero propsTwo 2 1 btnB)
          btnB.label] ∧
    containerChildren (renderButtonNode mpZero propsTwo 2 0 btnA) =
      [ViewNode.kbButton (kbButtonProps mpZero propsTwo 2 0 btnA)
        btnA.label] :=
  ⟨(C6_spacing mpZero propsTwo 2 1 btnB).1 (by decide),
    (C6_spacing mpZero propsTwo 2 0 btnA).2 rfl⟩

/-- C7: each rendered button container is keyed by its button's label, and
when the labels of one application's buttons are pairwise distinct the keys
of the rendered list are pairwise distinct, giving stable list identity. -/
theorem C7_keyed_by_label (mp : Nat → Option String)
    (props : ApplicationProps) (bs : List Button)
    (h : props.application.bind Application.buttons = some bs) :
    ((buttonRegionChildren mp props).map keyOf = bs.map Button.label) ∧
    ((bs.map Button.label).Nodup →
      ((buttonRegionChildren mp props).map keyOf).Nodup) := by
  have e : (buttonRegionChildren mp props).map keyOf = bs.map Button.label := by
    rw [buttonRegionChildren_some mp props bs h, map_keyOf_renderButtonsFrom]
  exact ⟨e, fun hn => e ▸ hn⟩

/-- Witness for C7: the fixture's keys equal the labels and are distinct. -/
theorem C7_keyed_by_label_witness :
    (buttonRegionChildren mpZero propsTwo).map keyOf =
      [some "Open", some "Run"] ∧
    ((buttonRegionChildren mpZero propsTwo).map keyOf).Nodup := by
  have h := C7_keyed_by_label mpZero propsTwo [btnA, btnB] rfl
  exact ⟨by simpa [btnA, btnB] using h.1, h.2 (by decide)⟩

/-- C8: the render is pure and deterministic: two invocations with equal
props and pointwise-equal icon, color and symbol-table collaborators produce
equal view trees; the click handler appears in the tree only as wired-up
data, never invoked during render, and the embedding is a total function
with no other effects. -/
theorem C8_pure_render (gi₁ gi₂ : Item → Nat)
    (gc₁ gc₂ : Item → Option IconColor) (mp₁ mp₂ : Nat → Option String)
    (p₁ p₂ : ApplicationProps)
    (hgi : ∀ it, gi₁ it = gi₂ it) (hgc : ∀ it, gc₁ it = gc₂ it)
    (hmp : ∀ k, mp₁ k = mp₂ k) (hp : p₁ = p₂) :
    ApplicationFooter gi₁ gc₁ mp₁ p₁ = ApplicationFooter gi₂ gc₂ mp₂ p₂ := by
  subst hp
  rw [funext hgi, funext hgc, funext hmp]

/-- Witness for C8 at the concrete fixtures. -/
theorem C8_pure_render_witness :
    ApplicationFooter giZero gcZero mpZero propsTwo =
      ApplicationFooter giZero gcZero mpZero propsTwo :=
  C8_pure_render giZero giZero gcZero gcZero mpZero mpZero propsTwo propsTwo
    (fun _ => rfl) (fun _ => rfl) (fun _ => rfl) rfl

/-- C9: every rendered button's `default` flag equals its `noBackground`
flag, both being the predicate that the index is 0 and the count at least
2, so no render yields a default-styled but backgrounded button or the
converse. -/
theorem C9_default_equals_noBackground (mp : Nat → Option String)
    (props : ApplicationProps) (c idx : Nat) (b : Button) :
    (kbButtonProps mp props c idx b).default =
      (kbButtonProps mp props c idx b).noBackground ∧
    ((kbButtonProps mp props c idx b).noBackground = true ↔
      (idx = 0 ∧ 2 ≤ c)) :=
  ⟨rfl, by simp [kbButtonProps]⟩

/-- C10 counterexample: two props differing only in a button's
`display_settings.color_uuid` (the second fixture button's color changed
from blue to red) produce different view trees, because the changed button
is captured in the click-handler argument bundle inside the tree. -/
theorem C10_color_counterexample :
    withColorUUIDs cuRed propsTwo ≠ propsTwo ∧
    ApplicationFooter giZero gcZero mpZero (withColorUUIDs cuRed propsTwo) ≠
      ApplicationFooter giZero gcZero mpZero propsTwo := by
  refine ⟨by decide, fun h => ?_⟩
  have h2 := congrArg (fun t => kbPropsAt t 1) h
  simp only at h2
  exact absurd h2 (by decide)

/-- C10 amended: the view tree with the click-handler payloads erased is
independent of every button's `color_uuid`: changing only the colors leaves
everything visible unchanged, the sole dependence being the button value
captured in each click-handler bundle. -/
theorem C10_color_independent (gi : Item → Nat) (gc : Item → Option IconColor)
    (mp : Nat → Option String) (p : ApplicationProps)
    (cu : Nat → Option String) :
    eraseClicks (ApplicationFooter gi gc mp (withColorUUIDs cu p)) =
      eraseClicks (ApplicationFooter gi gc mp p) := by
  rw [ApplicationFooter, ApplicationFooter, eraseClicks_flexContainer,
    eraseClicks_flexContainer]
  simp only [List.map_cons, List.map_nil, eraseClicks_flex,
    eraseClicks_flexContainer, eraseClicks_icon, eraseClicks_divMargin,
    eraseClicks_text, eraseClicks_spacing, withColorUUIDs_item,
    buttonRegionChildren_color]

end ApplicationFooterSpec
